import Mathlib

/-!
Shallow embedding of the PyTabular repository's two source files:

* `script/update_adomo_linux.py` — the maintenance script that downloads
  NuGet packages and swaps the vendor DLLs under `pytabular/dll`.  The
  filesystem, the NuGet search API and the network are abstracted into an
  `UpdateEnv`; every function of the script becomes a pure Lean function
  returning its result together with a trace of the side effects it performs
  (`UEvent`).  Python exceptions that the script catches are modelled as
  failure outcomes recorded in the environment; functions that return
  `None`/a value in Python return `Option` here.

* `pytabular/__init__.py` — the import-time bootstrap.  Its straight-line
  effects (importing pythonnet, calling `set_runtime`, importing `clr`,
  the five `clr.AddReference` calls and the trailing module imports) become
  a trace of `InitEvent`s, and the outcome of the fallible steps is an
  `InitEnv`; an uncaught Python exception is an `Except.error` carrying the
  original message.
-/

namespace PyTabular

/-- A filesystem path, as its list of components. -/
abbrev FsPath := List String

/-- One entry of the script's `NUGET_PACKAGES` table: the package id, its
main `dll_name` and the `additional_dlls` list. -/
structure PackageInfo where
  name : String
  dll_name : String
  additional_dlls : List String
  deriving Repr, DecidableEq

/-- The `NUGET_PACKAGES` entry for the AdomdClient package. -/
def pkgAdomdClient : PackageInfo :=
  { name := "Microsoft.AnalysisServices.AdomdClient"
    dll_name := "Microsoft.AnalysisServices.AdomdClient.dll"
    additional_dlls := [] }

/-- The `NUGET_PACKAGES` entry for the AMO package. -/
def pkgAnalysisServices : PackageInfo :=
  { name := "Microsoft.AnalysisServices"
    dll_name := "Microsoft.AnalysisServices.dll"
    additional_dlls := ["Microsoft.AnalysisServices.Core.dll",
                        "Microsoft.AnalysisServices.Runtime.Core.dll",
                        "Microsoft.AnalysisServices.Tabular.dll"] }

/-- The `NUGET_PACKAGES` dict, in insertion (= iteration) order. -/
def NUGET_PACKAGES : List PackageInfo := [pkgAdomdClient, pkgAnalysisServices]

/-- The `REQUIRED_DLLS` set, built exactly as the script builds it: every package's
`dll_name` plus its `additional_dlls` (a Python `set`; only membership is
ever used, so a deduplicated list stands in for it). -/
def REQUIRED_DLLS : List String :=
  (NUGET_PACKAGES.foldl (fun acc pkg => acc ++ pkg.dll_name :: pkg.additional_dlls) []).dedup

/-- The `cross_platform_frameworks` list of `find_specific_dll`, in source
order. -/
def cross_platform_frameworks : List String := ["net8.0", "net7.0", "net6.0", "netstandard2.0"]

/-- The `for target_framework in cross_platform_frameworks` loop of
`find_specific_dll`: try each framework directory under `lib_dir` in order;
if the directory exists and holds `dll_name`, return that file, otherwise
keep going.  `fs` tells which paths exist. -/
def searchFrameworks (fs : FsPath → Bool) (lib_dir : FsPath) (dll_name : String) :
    List String → Option FsPath
  | [] => none
  | target_framework :: rest =>
    let framework_dir := lib_dir ++ [target_framework]
    if fs framework_dir then
      let dll_file := framework_dir ++ [dll_name]
      if fs dll_file then some dll_file
      else searchFrameworks fs lib_dir dll_name rest
    else searchFrameworks fs lib_dir dll_name rest

/-- Model of `NuGetPackageManager.find_specific_dll`: give up if `extract_dir/lib`
does not exist, otherwise scan the four cross-platform framework folders in
order; with no hit in any of them the result is `None` (the trailing code
only logs the available directories). -/
def find_specific_dll (fs : FsPath → Bool) (extract_dir : FsPath) (dll_name : String) :
    Option FsPath :=
  let lib_dir := extract_dir ++ ["lib"]
  if fs lib_dir then searchFrameworks fs lib_dir dll_name cross_platform_frameworks
  else none

/-- Outcome of the one HTTP request of `get_latest_version`: either a
`requests.RequestException` or the parsed `data["data"]` array, reduced to
its version fields. -/
inductive SearchResult where
  | failure (msg : String)
  | success (versions : List String)
  deriving Repr, DecidableEq

/-- The abstracted outside world the script runs against. -/
structure UpdateEnv where
  /-- per package id, what the NuGet search API request yields. -/
  searchResponse : String → SearchResult
  /-- whether `urlretrieve` raises for a given package id and version. -/
  downloadFails : String → String → Bool
  /-- whether unzipping a given downloaded file raises. -/
  extractFails : String → Bool
  /-- existence of paths inside the extracted packages (for DLL search). -/
  fs : FsPath → Bool
  /-- whether `DLL_DIR` exists. -/
  dllDirExists : Bool
  /-- the names `DLL_DIR.glob("*.dll")` yields, in glob order. -/
  dllDirFiles : List String
  /-- whether `DLL_DIR.mkdir` + `shutil.copy2` raises for a given DLL name. -/
  copyFails : String → Bool

/-- Model of `NuGetPackageManager.get_latest_version`: a request failure is caught
and becomes `None`; an empty `data` array is `None`; otherwise
`data["data"][0]["version"]`. -/
def get_latest_version (env : UpdateEnv) (package_name : String) : Option String :=
  match env.searchResponse package_name with
  | .failure _ => none
  | .success [] => none
  | .success (version :: _) => some version

/-- Model of `NuGetPackageManager.download_package`: any exception is caught and
becomes `None`; on success the downloaded file is
`{package_name}.{version}.nupkg` in the temp dir (the name is all that
matters downstream). -/
def download_package (env : UpdateEnv) (package_name version : String) : Option String :=
  if env.downloadFails package_name version then none
  else some (package_name ++ "." ++ version ++ ".nupkg")

/-- Model of `NuGetPackageManager.extract_package`: any exception is caught and
becomes `None`; on success the extract dir is `temp_dir / package_file.stem`
(the temp dir root is abstracted as the component `"tmp"`; `.stem` drops the
6-character `.nupkg` suffix). -/
def extract_package (env : UpdateEnv) (package_file : String) : Option FsPath :=
  if env.extractFails package_file then none
  else some ["tmp", package_file.dropRight 6]

/-- Side effects of `AdomoUpdater.update_all_packages` and its helpers. -/
inductive UEvent where
  /-- a `get_latest_version` query for a package id. -/
  | getLatest (pkg : String)
  /-- a `download_package` attempt (the `urlretrieve` network fetch). -/
  | download (pkg version : String)
  /-- an `extract_package` unzip into the temp dir. -/
  | extract (pkg : String)
  /-- The `BACKUP_DIR.mkdir` call. -/
  | mkdirBackup
  /-- A `shutil.copy2` of one DLL into `BACKUP_DIR`. -/
  | backupCopy (dllFile : String)
  /-- An unlink of one DLL in `DLL_DIR`. -/
  | removeDll (dllFile : String)
  /-- The `DLL_DIR.mkdir` call. -/
  | mkdirDllDir
  /-- A `shutil.copy2` of one new DLL into `DLL_DIR`. -/
  | installCopy (dllName : String)
  deriving Repr, DecidableEq

/-- The phase of `update_all_packages` an event belongs to. -/
def phaseOf : UEvent → Nat
  | .getLatest _ => 1
  | .download _ _ => 1
  | .extract _ => 1
  | .mkdirBackup => 2
  | .backupCopy _ => 2
  | .removeDll _ => 3
  | .mkdirDllDir => 4
  | .installCopy _ => 4

/-- Whether an event writes to `DLL_DIR` or `BACKUP_DIR` (everything except
the temp-directory download/extract work and the version queries). -/
def mutatesDllState : UEvent → Bool
  | .mkdirBackup => true
  | .backupCopy _ => true
  | .removeDll _ => true
  | .mkdirDllDir => true
  | .installCopy _ => true
  | _ => false

/-- The `AdomoUpdater` object: the only state the modelled methods read is
the `dry_run` flag. -/
structure AdomoUpdater where
  dry_run : Bool
  deriving Repr, DecidableEq

/-- Model of `AdomoUpdater.backup_existing_dlls`: nothing when `DLL_DIR` is missing,
nothing (beyond logging) on a dry run, otherwise make `BACKUP_DIR` and copy
every `*.dll` out. -/
def backup_existing_dlls (self : AdomoUpdater) (env : UpdateEnv) : List UEvent :=
  if ! env.dllDirExists then []
  else if self.dry_run then []
  else UEvent.mkdirBackup :: env.dllDirFiles.map UEvent.backupCopy

/-- One package's record in `downloaded_packages` after Phase 1. -/
structure Downloaded where
  info : PackageInfo
  version : String
  extract_dir : FsPath
  deriving Repr, DecidableEq

/-- The download/extract part of one Phase-1 iteration, once the version
`v` is known (`evs` is the trace accumulated so far for this package). -/
def processDownload (env : UpdateEnv) (pkg : PackageInfo) (v : String) (evs : List UEvent) :
    List UEvent × Option Downloaded :=
  match download_package env pkg.name v with
  | none => (evs ++ [UEvent.download pkg.name v], none)
  | some package_file =>
    match extract_package env package_file with
    | none => (evs ++ [UEvent.download pkg.name v, UEvent.extract pkg.name], none)
    | some extract_dir =>
      (evs ++ [UEvent.download pkg.name v, UEvent.extract pkg.name],
       some ⟨pkg, v, extract_dir⟩)

/-- One Phase-1 loop iteration of `update_all_packages`: resolve the
version (querying the search API only when no `--version` was given), then
download and extract; `none` is the `return False` path. -/
def processPackage (env : UpdateEnv) (version : Option String) (pkg : PackageInfo) :
    List UEvent × Option Downloaded :=
  match version with
  | some v => processDownload env pkg v []
  | none =>
    match get_latest_version env pkg.name with
    | none => ([UEvent.getLatest pkg.name], none)
    | some v => processDownload env pkg v [UEvent.getLatest pkg.name]

/-- Phase 1 of `update_all_packages` over the package list: stop at the
first failing package with `none`, otherwise collect the `Downloaded`
records in order. -/
def phase1 (env : UpdateEnv) (version : Option String) :
    List PackageInfo → List UEvent × Option (List Downloaded)
  | [] => ([], some [])
  | pkg :: rest =>
    let pr := processPackage env version pkg
    match pr.2 with
    | none => (pr.1, none)
    | some d =>
      let rr := phase1 env version rest
      (pr.1 ++ rr.1, rr.2.map (fun l => d :: l))

/-- Phase 3 of `update_all_packages`: with `DLL_DIR` present, unlink every
`*.dll` (or only log on a dry run). -/
def phase3 (self : AdomoUpdater) (env : UpdateEnv) : List UEvent :=
  if env.dllDirExists then
    if self.dry_run then [] else env.dllDirFiles.map UEvent.removeDll
  else []

/-- One DLL of the Phase-4 install loop: look the DLL up with
`find_specific_dll` (`none` → `return False`); on a dry run only log;
otherwise `DLL_DIR.mkdir` + `shutil.copy2`, whose exception is caught and
becomes `return False`. -/
def installDll (self : AdomoUpdater) (env : UpdateEnv) (extract_dir : FsPath)
    (dll_name : String) : List UEvent × Bool :=
  match find_specific_dll env.fs extract_dir dll_name with
  | none => ([], false)
  | some _ =>
    if self.dry_run then ([], true)
    else if env.copyFails dll_name then ([UEvent.mkdirDllDir], false)
    else ([UEvent.mkdirDllDir, UEvent.installCopy dll_name], true)

/-- The inner `for dll_name in all_dlls` loop of Phase 4. -/
def installDlls (self : AdomoUpdater) (env : UpdateEnv) (extract_dir : FsPath) :
    List String → List UEvent × Bool
  | [] => ([], true)
  | dll_name :: rest =>
    let r := installDll self env extract_dir dll_name
    if r.2 then
      let rr := installDlls self env extract_dir rest
      (r.1 ++ rr.1, rr.2)
    else (r.1, false)

/-- Phase 4 of `update_all_packages`: install the main DLL and the
additional DLLs of every downloaded package, stopping at the first failure. -/
def phase4 (self : AdomoUpdater) (env : UpdateEnv) :
    List Downloaded → List UEvent × Bool
  | [] => ([], true)
  | d :: rest =>
    let r := installDlls self env d.extract_dir (d.info.dll_name :: d.info.additional_dlls)
    if r.2 then
      let rr := phase4 self env rest
      (r.1 ++ rr.1, rr.2)
    else (r.1, false)

/-- Model of `AdomoUpdater.update_all_packages`: Phase 1 (download + extract all
packages, any failure → `False`), Phase 2 (`backup_existing_dlls`), Phase 3
(delete old DLLs), Phase 4 (install new DLLs).  The result is the event
trace paired with the returned boolean. -/
def update_all_packages (self : AdomoUpdater) (env : UpdateEnv) (version : Option String) :
    List UEvent × Bool :=
  let p1 := phase1 env version NUGET_PACKAGES
  match p1.2 with
  | none => (p1.1, false)
  | some downloaded =>
    let evs2 := backup_existing_dlls self env
    let evs3 := phase3 self env
    let p4 := phase4 self env downloaded
    (p1.1 ++ evs2 ++ evs3 ++ p4.1, p4.2)

/-- Model of `AdomoUpdater.verify_dll_directory`: the result is `False` when `DLL_DIR` is missing
or a required DLL is missing; extra DLLs only produce a warning; set
equality with `REQUIRED_DLLS` returns `True`, and the final
`len(missing_dlls) == 0` is then the result. -/
def verify_dll_directory (env : UpdateEnv) : Bool :=
  if ! env.dllDirExists then false
  else
    let current_dlls := env.dllDirFiles
    let missing_dlls := REQUIRED_DLLS.filter (fun d => ! current_dlls.contains d)
    if ! missing_dlls.isEmpty then false
    else if current_dlls.all (fun d => REQUIRED_DLLS.contains d)
            && REQUIRED_DLLS.all (fun d => current_dlls.contains d) then true
    else missing_dlls.isEmpty

/-- Side effects of the import-time bootstrap in `pytabular/__init__.py`
(the pure-Python logging/rich setup before it is not modelled; no
analytical-service code is involved there). -/
inductive InitEvent where
  /-- The `import pythonnet` and `from pythonnet import set_runtime` step. -/
  | importPythonnet
  /-- the `set_runtime` call with its argument. -/
  | setRuntimeCall (rt : String)
  /-- a `logger.info` message. -/
  | logInfoMsg (s : String)
  /-- a `logger.warning` message. -/
  | logWarningMsg (s : String)
  /-- The `import clr` step. -/
  | importClr
  /-- A `clr.AddReference` of one DLL (identified by its file name). -/
  | addReference (dll : String)
  /-- a `from .m import ...` of one analytical-service module. -/
  | importModule (m : String)
  deriving Repr, DecidableEq

/-- Whether an event is a `clr.AddReference`. -/
def isAddReference : InitEvent → Bool
  | .addReference _ => true
  | _ => false

/-- Whether an event is an analytical-service module import. -/
def isImportModule : InitEvent → Bool
  | .importModule _ => true
  | _ => false

/-- Outcomes of the three fallible steps of the bootstrap: each field is
`some msg` when the step raises an exception rendered as `msg`. -/
structure InitEnv where
  pythonnetError : Option String
  setRuntimeError : Option String
  clrError : Option String
  deriving Repr, DecidableEq

/-- Whether the first character list is an initial segment of the second. -/
def leadsWith : List Char → List Char → Bool
  | [], _ => true
  | _ :: _, [] => false
  | a :: as, b :: bs => a == b && leadsWith as bs

/-- Whether the first character list occurs contiguously inside the
second. -/
def occursIn (sub : List Char) : List Char → Bool
  | [] => leadsWith sub []
  | b :: bs => leadsWith sub (b :: bs) || occursIn sub bs

/-- Python's `sub in s` substring test (used on the `set_runtime` error
message). -/
def containsSub (s sub : String) : Bool := occursIn sub.toList s.toList

/-- The five DLL files passed to `clr.AddReference`, in source order. -/
def vendor_assemblies : List String :=
  ["Microsoft.AnalysisServices.Runtime.Core.dll",
   "Microsoft.AnalysisServices.Core.dll",
   "Microsoft.AnalysisServices.dll",
   "Microsoft.AnalysisServices.Tabular.dll",
   "Microsoft.AnalysisServices.AdomdClient.dll"]

/-- The analytical-service modules imported after the references, in source
order. -/
def analytical_modules : List String :=
  ["pytabular", "logic_utils", "tabular_tracing", "tabular_editor",
   "best_practice_analyzer", "query", "pbi_helper", "document", "tmdl"]

/-- The import-time body of `pytabular/__init__.py`: import pythonnet (an
exception is logged and re-raised unchanged), call `set_runtime("coreclr")`
(its exception is caught; a message containing "already been loaded" is
logged as success, anything else as a warning, and execution continues
either way), import `clr` (exception re-raised unchanged), then the five
`clr.AddReference` calls and the module imports. -/
def pytabular_init (env : InitEnv) : Except String (List InitEvent) :=
  match env.pythonnetError with
  | some e => .error e
  | none =>
    let setRuntimeEvs : List InitEvent :=
      [.setRuntimeCall "coreclr"] ++
      (match env.setRuntimeError with
       | none => [.logInfoMsg "pythonnet configured for coreclr"]
       | some e =>
         if containsSub e "already been loaded" then
           [.logInfoMsg "runtime already configured in this process"]
         else [.logWarningMsg "runtime configuration failed"])
    match env.clrError with
    | some e => .error e
    | none =>
      .ok ([InitEvent.importPythonnet] ++ setRuntimeEvs ++ [InitEvent.importClr]
           ++ vendor_assemblies.map InitEvent.addReference
           ++ analytical_modules.map InitEvent.importModule)

/-- A concrete environment where every network step succeeds, the extracted
packages hold no DLL at all, and the DLL directory is absent. -/
def env0 : UpdateEnv :=
  { searchResponse := fun _ => SearchResult.success ["1.2.3"]
    downloadFails := fun _ _ => false
    extractFails := fun _ => false
    fs := fun _ => false
    dllDirExists := false
    dllDirFiles := []
    copyFails := fun _ => false }

/-- Like `env0` but every download raises. -/
def env1 : UpdateEnv := { env0 with downloadFails := fun _ _ => true }

/-- Like `env0` but the search API returns an empty data array. -/
def env2 : UpdateEnv := { env0 with searchResponse := fun _ => SearchResult.success [] }

/-- Like `env0` but the search API request raises. -/
def env3 : UpdateEnv := { env0 with searchResponse := fun _ => SearchResult.failure "timeout" }

/-- The Phase-1 record of the AdomdClient package in `env0`. -/
def downloaded0 : Downloaded :=
  ⟨pkgAdomdClient, "1.2.3", ["tmp", "Microsoft.AnalysisServices.AdomdClient.1.2.3"]⟩

/-- The Phase-1 record of the AMO package in `env0`. -/
def downloaded1 : Downloaded :=
  ⟨pkgAnalysisServices, "1.2.3", ["tmp", "Microsoft.AnalysisServices.1.2.3"]⟩

/-- The bootstrap trace when every step succeeds. -/
def init_trace_ok : List InitEvent :=
  [InitEvent.importPythonnet, InitEvent.setRuntimeCall "coreclr",
   InitEvent.logInfoMsg "pythonnet configured for coreclr", InitEvent.importClr]
  ++ vendor_assemblies.map InitEvent.addReference
  ++ analytical_modules.map InitEvent.importModule

/-- The framework loop returns the first framework of the list whose
directory exists and holds the DLL. -/
theorem searchFrameworks_eq_find (fs : FsPath → Bool) (lib_dir : FsPath) (dll_name : String)
    (fws : List String) :
    searchFrameworks fs lib_dir dll_name fws =
      (fws.find? (fun fw => fs (lib_dir ++ [fw]) && fs (lib_dir ++ [fw, dll_name]))).map
        (fun fw => lib_dir ++ [fw, dll_name]) := by
  induction fws with
  | nil => rfl
  | cons fw rest ih =>
    have hassoc : lib_dir ++ [fw] ++ [dll_name] = lib_dir ++ [fw, dll_name] := by
      rw [List.append_assoc]; rfl
    by_cases h1 : fs (lib_dir ++ [fw]) = true
    · by_cases h2 : fs (lib_dir ++ [fw, dll_name]) = true
      · rw [List.find?_cons_of_pos _ (by simp [h1, h2])]
        simp [searchFrameworks, h1, hassoc, h2]
      · rw [List.find?_cons_of_neg _ (by simp [h1, h2])]
        simp only [searchFrameworks, h1, if_true, hassoc]
        simp [h2, ih]
    · rw [List.find?_cons_of_neg _ (by simp [h1])]
      simp [searchFrameworks, h1, ih]

/-- The full characterization of `find_specific_dll` used by several
claims below. -/
theorem find_specific_dll_eq (fs : FsPath → Bool) (extract_dir : FsPath) (dll_name : String) :
    find_specific_dll fs extract_dir dll_name =
      if fs (extract_dir ++ ["lib"]) then
        (cross_platform_frameworks.find? (fun fw =>
            fs (extract_dir ++ ["lib", fw]) && fs (extract_dir ++ ["lib", fw, dll_name]))).map
          (fun fw => extract_dir ++ ["lib", fw, dll_name])
      else none := by
  have h := searchFrameworks_eq_find fs (extract_dir ++ ["lib"]) dll_name
      cross_platform_frameworks
  simp only [find_specific_dll, h, List.append_assoc]
  rfl

/-- C1.  `find_specific_dll` consults only the four cross-platform
framework folders `net8.0`, `net7.0`, `net6.0`, `netstandard2.0` under the
package's `lib` directory, in exactly that order; it returns the DLL path
from the first of them that contains the DLL, and `none` — with no fallback
to any other folder — when none of the four contains it (in particular when
`lib` itself is missing). -/
theorem find_specific_dll_search_order (fs : FsPath → Bool) (extract_dir : FsPath)
    (dll_name : String) :
    find_specific_dll fs extract_dir dll_name =
      if fs (extract_dir ++ ["lib"]) then
        ((["net8.0", "net7.0", "net6.0", "netstandard2.0"] : List String).find? (fun fw =>
            fs (extract_dir ++ ["lib", fw]) && fs (extract_dir ++ ["lib", fw, dll_name]))).map
          (fun fw => extract_dir ++ ["lib", fw, dll_name])
      else none :=
  find_specific_dll_eq fs extract_dir dll_name

/-- C10.  `verify_dll_directory` returns `true` exactly when the DLL
directory exists and every required DLL is present among its files; extra
DLLs do not make it fail.  The required set is the five
Microsoft.AnalysisServices DLLs. -/
theorem verify_dll_directory_iff (env : UpdateEnv) :
    (verify_dll_directory env = true ↔
      (env.dllDirExists = true ∧ ∀ d ∈ REQUIRED_DLLS, d ∈ env.dllDirFiles))
  ∧ REQUIRED_DLLS = ["Microsoft.AnalysisServices.AdomdClient.dll",
      "Microsoft.AnalysisServices.dll", "Microsoft.AnalysisServices.Core.dll",
      "Microsoft.AnalysisServices.Runtime.Core.dll",
      "Microsoft.AnalysisServices.Tabular.dll"] := by
  refine ⟨?_, rfl⟩
  have hkey : ((REQUIRED_DLLS.filter (fun d => ! env.dllDirFiles.contains d)) = []) ↔
      ∀ d ∈ REQUIRED_DLLS, d ∈ env.dllDirFiles := by
    rw [List.filter_eq_nil_iff]
    constructor
    · intro h d hd
      have := h d hd
      simpa using this
    · intro h d hd
      simpa using h d hd
  unfold verify_dll_directory
  by_cases hex : env.dllDirExists = true
  · by_cases hmiss : ∀ d ∈ REQUIRED_DLLS, d ∈ env.dllDirFiles
    · have h1 : (REQUIRED_DLLS.filter (fun d => ! env.dllDirFiles.contains d)).isEmpty
          = true := by
        rw [List.isEmpty_iff]
        exact hkey.mpr hmiss
      simp [hex, h1, ite_self]
      exact fun h => Or.inr h
    · have h1 : (REQUIRED_DLLS.filter (fun d => ! env.dllDirFiles.contains d)).isEmpty
          = false := by
        cases hh : (REQUIRED_DLLS.filter (fun d => ! env.dllDirFiles.contains d)).isEmpty
        · rfl
        · exact absurd (hkey.mp (List.isEmpty_iff.mp hh)) hmiss
      simp [hex, h1, hmiss]
  · simp only [Bool.not_eq_true] at hex
    simp [hex]

/-- Every event emitted while downloading and extracting one package is a
Phase-1 event. -/
theorem processDownload_phase (env : UpdateEnv) (pkg : PackageInfo) (v : String)
    (evs : List UEvent) (h : ∀ e ∈ evs, phaseOf e = 1) :
    ∀ e ∈ (processDownload env pkg v evs).1, phaseOf e = 1 := by
  unfold processDownload
  split
  · exact List.forall_mem_append.mpr ⟨h, by simp [phaseOf]⟩
  · split
    · exact List.forall_mem_append.mpr ⟨h, by simp [phaseOf]⟩
    · exact List.forall_mem_append.mpr ⟨h, by simp [phaseOf]⟩

/-- Every event of one Phase-1 loop iteration is a Phase-1 event. -/
theorem processPackage_phase (env : UpdateEnv) (version : Option String) (pkg : PackageInfo) :
    ∀ e ∈ (processPackage env version pkg).1, phaseOf e = 1 := by
  unfold processPackage
  split
  · exact processDownload_phase env pkg _ [] (by simp)
  · split
    · simp [phaseOf]
    · exact processDownload_phase env pkg _ _ (by simp [phaseOf])

/-- Every event of Phase 1 is a Phase-1 event. -/
theorem phase1_phase (env : UpdateEnv) (version : Option String) (pkgs : List PackageInfo) :
    ∀ e ∈ (phase1 env version pkgs).1, phaseOf e = 1 := by
  induction pkgs with
  | nil => simp [phase1]
  | cons pkg rest ih =>
    unfold phase1
    dsimp only
    split
    · exact fun e he => processPackage_phase env version pkg e he
    · exact List.forall_mem_append.mpr ⟨processPackage_phase env version pkg, ih⟩

/-- Every event of the backup step is a Phase-2 event. -/
theorem backup_phase (self : AdomoUpdater) (env : UpdateEnv) :
    ∀ e ∈ backup_existing_dlls self env, phaseOf e = 2 := by
  unfold backup_existing_dlls
  split
  · simp
  · split
    · simp
    · intro e he
      rcases List.mem_cons.mp he with rfl | he
      · rfl
      · rcases List.mem_map.mp he with ⟨x, _, rfl⟩
        rfl

/-- Every event of the deletion step is a Phase-3 event. -/
theorem phase3_phase (self : AdomoUpdater) (env : UpdateEnv) :
    ∀ e ∈ phase3 self env, phaseOf e = 3 := by
  unfold phase3
  split
  · split
    · simp
    · intro e he
      rcases List.mem_map.mp he with ⟨x, _, rfl⟩
      rfl
  · simp

/-- Every event of one DLL installation is a Phase-4 event. -/
theorem installDll_phase (self : AdomoUpdater) (env : UpdateEnv) (extract_dir : FsPath)
    (dll_name : String) :
    ∀ e ∈ (installDll self env extract_dir dll_name).1, phaseOf e = 4 := by
  unfold installDll
  split
  · simp
  · split
    · simp
    · split
      · simp [phaseOf]
      · simp [phaseOf]

/-- Every event of the inner install loop is a Phase-4 event. -/
theorem installDlls_phase (self : AdomoUpdater) (env : UpdateEnv) (extract_dir : FsPath)
    (dlls : List String) :
    ∀ e ∈ (installDlls self env extract_dir dlls).1, phaseOf e = 4 := by
  induction dlls with
  | nil => simp [installDlls]
  | cons d rest ih =>
    unfold installDlls
    dsimp only
    split
    · exact List.forall_mem_append.mpr ⟨installDll_phase self env extract_dir d, ih⟩
    · exact installDll_phase self env extract_dir d

/-- Every event of Phase 4 is a Phase-4 event. -/
theorem phase4_phase (self : AdomoUpdater) (env : UpdateEnv) (dls : List Downloaded) :
    ∀ e ∈ (phase4 self env dls).1, phaseOf e = 4 := by
  induction dls with
  | nil => simp [phase4]
  | cons d rest ih =>
    unfold phase4
    dsimp only
    split
    · exact List.forall_mem_append.mpr ⟨installDlls_phase self env _ _, ih⟩
    · exact installDlls_phase self env _ _

/-- A list of events with a constant phase maps to a sorted phase list. -/
theorem pairwise_le_of_const (l : List UEvent) (n : Nat) (h : ∀ e ∈ l, phaseOf e = n) :
    (l.map phaseOf).Pairwise (· ≤ ·) := by
  induction l with
  | nil => simp
  | cons a t ih =>
    simp only [List.map_cons, List.pairwise_cons]
    constructor
    · intro b hb
      rcases List.mem_map.mp hb with ⟨x, hx, rfl⟩
      rw [h a (by simp), h x (List.mem_cons_of_mem a hx)]
    · exact ih (fun e he => h e (List.mem_cons_of_mem a he))

/-- Appending traces whose phases are sorted and compatible keeps the phase
list sorted. -/
theorem pairwise_phases_append (t1 t2 : List UEvent)
    (h1 : (t1.map phaseOf).Pairwise (· ≤ ·)) (h2 : (t2.map phaseOf).Pairwise (· ≤ ·))
    (hle : ∀ e1 ∈ t1, ∀ e2 ∈ t2, phaseOf e1 ≤ phaseOf e2) :
    ((t1 ++ t2).map phaseOf).Pairwise (· ≤ ·) := by
  rw [List.map_append, List.pairwise_append]
  refine ⟨h1, h2, ?_⟩
  intro a ha b hb
  rcases List.mem_map.mp ha with ⟨x, hx, rfl⟩
  rcases List.mem_map.mp hb with ⟨y, hy, rfl⟩
  exact hle x hx y hy

/-- C3.  The trace of `update_all_packages` is ordered by phase: every
download/extract step (Phase 1) precedes every backup step (Phase 2), which
precedes every deletion (Phase 3), which precedes every install copy
(Phase 4); no event of a later phase ever occurs before one of an earlier
phase. -/
theorem update_all_packages_phase_order (self : AdomoUpdater) (env : UpdateEnv)
    (version : Option String) :
    ((update_all_packages self env version).1.map phaseOf).Pairwise (· ≤ ·) := by
  unfold update_all_packages
  dsimp only
  split
  · exact pairwise_le_of_const _ 1 (phase1_phase env version NUGET_PACKAGES)
  · refine pairwise_phases_append _ _ ?_ (pairwise_le_of_const _ 4 (phase4_phase self env _))
      ?_
    · refine pairwise_phases_append _ _ ?_ (pairwise_le_of_const _ 3 (phase3_phase self env))
        ?_
      · refine pairwise_phases_append _ _
          (pairwise_le_of_const _ 1 (phase1_phase env version NUGET_PACKAGES))
          (pairwise_le_of_const _ 2 (backup_phase self env)) ?_
        intro e1 he1 e2 he2
        rw [phase1_phase env version NUGET_PACKAGES e1 he1, backup_phase self env e2 he2]
        exact Nat.le_succ 1
      · intro e1 he1 e2 he2
        rw [phase3_phase self env e2 he2]
        rcases List.mem_append.mp he1 with h | h
        · rw [phase1_phase env version NUGET_PACKAGES e1 h]
          omega
        · rw [backup_phase self env e1 h]
          omega
    · intro e1 he1 e2 he2
      rw [phase4_phase self env _ e2 he2]
      rcases List.mem_append.mp he1 with h | h
      · rcases List.mem_append.mp h with h | h
        · rw [phase1_phase env version NUGET_PACKAGES e1 h]
          omega
        · rw [backup_phase self env e1 h]
          omega
      · rw [phase3_phase self env e1 h]
        omega

/-- Phase-1 events never write to the DLL or backup directories. -/
theorem not_mutates_of_phase1 (e : UEvent) (h : phaseOf e = 1) :
    mutatesDllState e = false := by
  cases e <;> simp_all [phaseOf, mutatesDllState]

/-- A dry run emits no event from one DLL install. -/
theorem installDll_dry (self : AdomoUpdater) (env : UpdateEnv) (extract_dir : FsPath)
    (dll_name : String) (h : self.dry_run = true) :
    (installDll self env extract_dir dll_name).1 = [] := by
  unfold installDll
  split
  · rfl
  · simp [h]

/-- A dry run emits no event from the inner install loop. -/
theorem installDlls_dry (self : AdomoUpdater) (env : UpdateEnv) (extract_dir : FsPath)
    (dlls : List String) (h : self.dry_run = true) :
    (installDlls self env extract_dir dlls).1 = [] := by
  induction dlls with
  | nil => rfl
  | cons d rest ih =>
    unfold installDlls
    dsimp only
    split
    · simp [installDll_dry self env extract_dir d h, ih]
    · exact installDll_dry self env extract_dir d h

/-- A dry run emits no event from Phase 4. -/
theorem phase4_dry (self : AdomoUpdater) (env : UpdateEnv) (dls : List Downloaded)
    (h : self.dry_run = true) :
    (phase4 self env dls).1 = [] := by
  induction dls with
  | nil => rfl
  | cons d rest ih =>
    unfold phase4
    dsimp only
    split
    · simp [installDlls_dry self env _ _ h, ih]
    · exact installDlls_dry self env _ _ h

/-- A dry run emits no event from Phase 3. -/
theorem phase3_dry (self : AdomoUpdater) (env : UpdateEnv) (h : self.dry_run = true) :
    phase3 self env = [] := by
  simp [phase3, h]

/-- A dry run emits no event from the backup step. -/
theorem backup_dry (self : AdomoUpdater) (env : UpdateEnv) (h : self.dry_run = true) :
    backup_existing_dlls self env = [] := by
  unfold backup_existing_dlls
  split
  · rfl
  · simp [h]

/-- C9.  With `dry_run=True`, neither `backup_existing_dlls` nor any call
path of `update_all_packages` creates, deletes or overwrites a file in the
DLL directory or the backup directory: the backup step emits no event at
all, and every event of the update trace is a non-mutating one (version
queries and temp-directory download/extract work only). -/
theorem dry_run_no_mutation (self : AdomoUpdater) (env : UpdateEnv) (version : Option String)
    (h : self.dry_run = true) :
    backup_existing_dlls self env = []
    ∧ (update_all_packages self env version).1.all (fun e => ! mutatesDllState e) = true := by
  refine ⟨backup_dry self env h, ?_⟩
  rw [List.all_eq_true]
  intro e he
  unfold update_all_packages at he
  dsimp only at he
  split at he
  · have := phase1_phase env version NUGET_PACKAGES e he
    simp [not_mutates_of_phase1 e this]
  · rw [backup_dry self env h, phase3_dry self env h, phase4_dry self env _ h] at he
    simp only [List.append_nil] at he
    have := phase1_phase env version NUGET_PACKAGES e he
    simp [not_mutates_of_phase1 e this]

/-- Any failing package in Phase 1 makes the whole of Phase 1 fail. -/
theorem phase1_fail (env : UpdateEnv) (version : Option String) (pkgs : List PackageInfo)
    (p : PackageInfo) (hp : p ∈ pkgs) (hfail : (processPackage env version p).2 = none) :
    (phase1 env version pkgs).2 = none := by
  induction pkgs with
  | nil => cases hp
  | cons q rest ih =>
    unfold phase1
    dsimp only
    cases hq : (processPackage env version q).2 with
    | none => simp [hq]
    | some d =>
      rcases List.mem_cons.mp hp with rfl | hp2
      · rw [hq] at hfail
        cases hfail
      · simp [hq, ih hp2]

/-- C8.  If the Phase-1 processing of any configured package fails (its
download or its extraction returns `None`), `update_all_packages` returns
`False` and its trace contains no backup, deletion, `mkdir` or copy event,
so every file of the DLL directory and the backup directory is untouched. -/
theorem phase1_failure_leaves_dll_dir_untouched (self : AdomoUpdater) (env : UpdateEnv)
    (version : Option String) (p : PackageInfo) (hp : p ∈ NUGET_PACKAGES)
    (hfail : (processPackage env version p).2 = none) :
    (update_all_packages self env version).2 = false
    ∧ (update_all_packages self env version).1.all (fun e => ! mutatesDllState e) = true := by
  have h1 := phase1_fail env version NUGET_PACKAGES p hp hfail
  constructor
  · unfold update_all_packages
    dsimp only
    simp [h1]
  · unfold update_all_packages
    dsimp only
    simp only [h1]
    rw [List.all_eq_true]
    intro e he
    have := phase1_phase env version NUGET_PACKAGES e he
    simp [not_mutates_of_phase1 e this]

/-- A successful single-DLL install means the DLL search succeeded. -/
theorem installDll_found (self : AdomoUpdater) (env : UpdateEnv) (extract_dir : FsPath)
    (dll_name : String) (h : (installDll self env extract_dir dll_name).2 = true) :
    find_specific_dll env.fs extract_dir dll_name ≠ none := by
  cases hf : find_specific_dll env.fs extract_dir dll_name with
  | none =>
    unfold installDll at h
    rw [hf] at h
    cases h
  | some p => simp

/-- A successful inner install loop found every DLL of its list. -/
theorem installDlls_found (self : AdomoUpdater) (env : UpdateEnv) (extract_dir : FsPath)
    (dlls : List String) (h : (installDlls self env extract_dir dlls).2 = true) :
    ∀ d ∈ dlls, find_specific_dll env.fs extract_dir d ≠ none := by
  induction dlls with
  | nil => simp
  | cons d rest ih =>
    unfold installDlls at h
    dsimp only at h
    intro x hx
    by_cases hd : (installDll self env extract_dir d).2 = true
    · rw [if_pos hd] at h
      rcases List.mem_cons.mp hx with rfl | hx2
      · exact installDll_found self env extract_dir x hd
      · exact ih (by simpa using h) x hx2
    · rw [if_neg hd] at h
      cases h

/-- A successful Phase 4 found every required DLL of every downloaded
package. -/
theorem phase4_found (self : AdomoUpdater) (env : UpdateEnv) (dls : List Downloaded)
    (h : (phase4 self env dls).2 = true) :
    ∀ d ∈ dls, ∀ dll ∈ d.info.dll_name :: d.info.additional_dlls,
      find_specific_dll env.fs d.extract_dir dll ≠ none := by
  induction dls with
  | nil => simp
  | cons d rest ih =>
    unfold phase4 at h
    dsimp only at h
    intro x hx
    by_cases hd : (installDlls self env d.extract_dir
        (d.info.dll_name :: d.info.additional_dlls)).2 = true
    · rw [if_pos hd] at h
      rcases List.mem_cons.mp hx with rfl | hx2
      · exact installDlls_found self env x.extract_dir _ hd
      · exact ih (by simpa using h) x hx2
    · rw [if_neg hd] at h
      cases h

/-- C4.  If a required DLL of a package downloaded and extracted in Phase 1
is absent from every expected cross-platform framework folder of that
package, `find_specific_dll` returns `none` for it and
`update_all_packages` returns `False` (the failure is a return value, not
an exception: the model is a total function). -/
theorem missing_dll_returns_none_and_false (self : AdomoUpdater) (env : UpdateEnv)
    (version : Option String) (dls : List Downloaded) (d : Downloaded) (dll : String)
    (h1 : (phase1 env version NUGET_PACKAGES).2 = some dls)
    (h2 : d ∈ dls)
    (h3 : dll ∈ d.info.dll_name :: d.info.additional_dlls)
    (h4 : cross_platform_frameworks.all (fun fw =>
        !(env.fs (d.extract_dir ++ ["lib", fw]) &&
          env.fs (d.extract_dir ++ ["lib", fw, dll]))) = true) :
    find_specific_dll env.fs d.extract_dir dll = none
    ∧ (update_all_packages self env version).2 = false := by
  have hnone : find_specific_dll env.fs d.extract_dir dll = none := by
    rw [find_specific_dll_eq]
    have hfind : cross_platform_frameworks.find? (fun fw =>
        env.fs (d.extract_dir ++ ["lib", fw]) &&
          env.fs (d.extract_dir ++ ["lib", fw, dll])) = none := by
      rw [List.find?_eq_none]
      intro fw hfw
      have hdisj : env.fs (d.extract_dir ++ ["lib", fw]) = false ∨
          env.fs (d.extract_dir ++ ["lib", fw, dll]) = false := by
        simpa using List.all_eq_true.mp h4 fw hfw
      intro h6
      rw [Bool.and_eq_true] at h6
      rcases hdisj with hc | hc
      · rw [h6.1] at hc
        cases hc
      · rw [h6.2] at hc
        cases hc
    rw [hfind]
    simp
  refine ⟨hnone, ?_⟩
  unfold update_all_packages
  dsimp only
  simp only [h1]
  cases hp4 : (phase4 self env dls).2 with
  | false => rfl
  | true => exact absurd hnone (phase4_found self env dls hp4 d h2 dll h3)

/-- Every event of the download/extract part of one package's Phase-1 work
is tagged with that package's name. -/
theorem processDownload_shape (env : UpdateEnv) (pkg : PackageInfo) (v : String)
    (evs : List UEvent)
    (hevs : ∀ e ∈ evs, e = UEvent.getLatest pkg.name ∨
      (∃ w, e = UEvent.download pkg.name w) ∨ e = UEvent.extract pkg.name) :
    ∀ e ∈ (processDownload env pkg v evs).1,
      e = UEvent.getLatest pkg.name ∨ (∃ w, e = UEvent.download pkg.name w) ∨
        e = UEvent.extract pkg.name := by
  unfold processDownload
  split
  · refine List.forall_mem_append.mpr ⟨hevs, ?_⟩
    intro e he
    simp only [List.mem_singleton] at he
    subst he
    exact Or.inr (Or.inl ⟨v, rfl⟩)
  · split
    · refine List.forall_mem_append.mpr ⟨hevs, ?_⟩
      intro e he
      rcases List.mem_cons.mp he with rfl | he2
      · exact Or.inr (Or.inl ⟨v, rfl⟩)
      · simp only [List.mem_singleton] at he2
        subst he2
        exact Or.inr (Or.inr rfl)
    · refine List.forall_mem_append.mpr ⟨hevs, ?_⟩
      intro e he
      rcases List.mem_cons.mp he with rfl | he2
      · exact Or.inr (Or.inl ⟨v, rfl⟩)
      · simp only [List.mem_singleton] at he2
        subst he2
        exact Or.inr (Or.inr rfl)

/-- Every event of one package's Phase-1 work is tagged with that package's
name. -/
theorem processPackage_shape (env : UpdateEnv) (version : Option String) (pkg : PackageInfo) :
    ∀ e ∈ (processPackage env version pkg).1,
      e = UEvent.getLatest pkg.name ∨ (∃ w, e = UEvent.download pkg.name w) ∨
        e = UEvent.extract pkg.name := by
  unfold processPackage
  split
  · exact processDownload_shape env pkg _ [] (by simp)
  · split
    · intro e he
      simp only [List.mem_singleton] at he
      subst he
      exact Or.inl rfl
    · refine processDownload_shape env pkg _ _ ?_
      intro e he
      simp only [List.mem_singleton] at he
      subst he
      exact Or.inl rfl

/-- One package's Phase-1 work never downloads under another package's
name. -/
theorem processPackage_no_foreign_download (env : UpdateEnv) (version : Option String)
    (q : PackageInfo) (nm v : String) (hne : nm ≠ q.name) :
    UEvent.download nm v ∉ (processPackage env version q).1 := by
  intro hmem
  rcases processPackage_shape env version q _ hmem with h | ⟨w, h⟩ | h
  · cases h
  · simp only [UEvent.download.injEq] at h
    exact hne h.1
  · cases h

/-- A package whose version lookup fails sinks Phase 1 and is never
downloaded (nor is any other package of the same name, whose lookup fails
identically). -/
theorem phase1_version_missing (env : UpdateEnv) (pkgs : List PackageInfo) (p : PackageInfo)
    (hp : p ∈ pkgs) (hv : get_latest_version env p.name = none) :
    (phase1 env none pkgs).2 = none ∧
      ∀ v, UEvent.download p.name v ∉ (phase1 env none pkgs).1 := by
  induction pkgs with
  | nil => cases hp
  | cons q rest ih =>
    by_cases hq : q.name = p.name
    · have hqv : get_latest_version env q.name = none := by
        rw [hq]
        exact hv
      have hpp2 : (processPackage env none q).2 = none := by
        unfold processPackage
        rw [hqv]
      have hpp1 : (processPackage env none q).1 = [UEvent.getLatest q.name] := by
        unfold processPackage
        rw [hqv]
      constructor
      · unfold phase1
        dsimp only
        simp [hpp2]
      · intro v hmem
        unfold phase1 at hmem
        dsimp only at hmem
        simp only [hpp2] at hmem
        rw [hpp1] at hmem
        simp at hmem
    · have hp2 : p ∈ rest := by
        rcases List.mem_cons.mp hp with rfl | h2
        · exact absurd rfl hq
        · exact h2
      have ihr := ih hp2
      constructor
      · unfold phase1
        dsimp only
        cases hpq : (processPackage env none q).2 with
        | none => simp [hpq]
        | some d => simp [hpq, ihr.1]
      · intro v hmem
        unfold phase1 at hmem
        dsimp only at hmem
        cases hpq : (processPackage env none q).2 with
        | none =>
          simp only [hpq] at hmem
          exact processPackage_no_foreign_download env none q p.name v
            (fun h => hq h.symm) hmem
        | some d =>
          simp only [hpq] at hmem
          rcases List.mem_append.mp hmem with h | h
          · exact processPackage_no_foreign_download env none q p.name v
              (fun h2 => hq h2.symm) h
          · exact ihr.2 v h

/-- C5.  With no version argument, a package whose NuGet search yields no
version (a request failure or an empty data array) makes
`get_latest_version` return `none`, makes `update_all_packages` return
`False`, and nothing is ever downloaded for that package. -/
theorem missing_version_returns_false_no_download (self : AdomoUpdater) (env : UpdateEnv)
    (p : PackageInfo) (msg : String) (hp : p ∈ NUGET_PACKAGES)
    (hr : env.searchResponse p.name = SearchResult.failure msg ∨
          env.searchResponse p.name = SearchResult.success []) :
    get_latest_version env p.name = none
    ∧ (update_all_packages self env none).2 = false
    ∧ ∀ v, UEvent.download p.name v ∉ (update_all_packages self env none).1 := by
  have hv : get_latest_version env p.name = none := by
    unfold get_latest_version
    rcases hr with hr | hr <;> rw [hr]
  have h := phase1_version_missing env NUGET_PACKAGES p hp hv
  refine ⟨hv, ?_, ?_⟩
  · unfold update_all_packages
    dsimp only
    simp [h.1]
  · intro v
    unfold update_all_packages
    dsimp only
    simp only [h.1]
    exact h.2 v

/-- C6.  A network failure never escapes the package manager: a request
exception in the version lookup yields `none` from `get_latest_version`, a
download exception yields `none` from `download_package` (both are total
functions here: the exception is caught in the source), and in either case
`update_all_packages` returns `False`. -/
theorem network_failure_returns_none_and_false (self : AdomoUpdater)
    (envA envB : UpdateEnv) (p : PackageInfo) (msg v : String)
    (hp : p ∈ NUGET_PACKAGES)
    (hA : envA.searchResponse p.name = SearchResult.failure msg)
    (hB1 : get_latest_version envB p.name = some v)
    (hB2 : envB.downloadFails p.name v = true) :
    get_latest_version envA p.name = none
  ∧ download_package envB p.name v = none
  ∧ (update_all_packages self envA none).2 = false
  ∧ (update_all_packages self envB none).2 = false := by
  have hv : get_latest_version envA p.name = none := by
    unfold get_latest_version
    rw [hA]
  refine ⟨hv, ?_, ?_, ?_⟩
  · unfold download_package
    rw [hB2]
    rfl
  · have h := phase1_version_missing envA NUGET_PACKAGES p hp hv
    unfold update_all_packages
    dsimp only
    simp [h.1]
  · have hpp : (processPackage envB none p).2 = none := by
      unfold processPackage
      rw [hB1]
      dsimp only
      unfold processDownload download_package
      simp [hB2]
    have h1 := phase1_fail envB none NUGET_PACKAGES p hp hpp
    unfold update_all_packages
    dsimp only
    simp [h1]

/-- C2.  Whenever the package import succeeds, dropping the leading events
that are neither an assembly reference nor an analytical-service module
load leaves exactly the five `clr.AddReference` calls — Runtime.Core,
then Core, then AMO, then Tabular, then AdomdClient — followed by the
analytical-service module imports: no other assembly is ever referenced,
and every analytical-service module import comes after all five
references. -/
theorem init_addReference_order (env : InitEnv) (tr : List InitEvent)
    (h : pytabular_init env = .ok tr) :
    tr.dropWhile (fun e => !(isAddReference e || isImportModule e))
      = vendor_assemblies.map InitEvent.addReference
        ++ analytical_modules.map InitEvent.importModule := by
  rcases env with ⟨pe, re, ce⟩
  rcases pe with _ | e
  · rcases ce with _ | e2
    · unfold pytabular_init at h
      dsimp only at h
      rcases re with _ | m
      · simp only [Except.ok.injEq] at h
        subst h
        simp [vendor_assemblies, analytical_modules, isAddReference, isImportModule]
      · by_cases hm : containsSub m "already been loaded" = true
        · simp only [hm, if_true, Except.ok.injEq] at h
          subst h
          simp [vendor_assemblies, analytical_modules, isAddReference, isImportModule]
        · simp only [Bool.not_eq_true] at hm
          simp only [hm, Bool.false_eq_true, if_false, Except.ok.injEq] at h
          subst h
          simp [vendor_assemblies, analytical_modules, isAddReference, isImportModule]
    · exact absurd h (by simp [pytabular_init])
  · exact absurd h (by simp [pytabular_init])

/-- C7.  A failure to import pythonnet, or to import clr, is re-raised
unchanged out of the package import (the original error surfaces); a
`set_runtime` failure whose message contains "already been loaded" is
tolerated and the import proceeds to success. -/
theorem init_reraises_import_errors (e m : String) (re ce : Option String)
    (h : containsSub m "already been loaded" = true) :
    pytabular_init ⟨some e, re, ce⟩ = .error e
  ∧ pytabular_init ⟨none, re, some e⟩ = .error e
  ∧ ∃ tr, pytabular_init ⟨none, some m, none⟩ = .ok tr := by
  refine ⟨rfl, rfl, ⟨_, rfl⟩⟩

/-- Concrete instance of the C2 theorem at the all-success environment. -/
theorem init_addReference_order_witness :
    init_trace_ok.dropWhile (fun e => !(isAddReference e || isImportModule e))
      = vendor_assemblies.map InitEvent.addReference
        ++ analytical_modules.map InitEvent.importModule :=
  init_addReference_order ⟨none, none, none⟩ init_trace_ok (by rfl)

/-- Concrete instance of the C4 theorem: in `env0` both packages download
and extract but no DLL exists anywhere. -/
theorem missing_dll_returns_none_and_false_witness :
    (phase1 env0 none NUGET_PACKAGES).2 = some [downloaded0, downloaded1]
  ∧ downloaded0 ∈ [downloaded0, downloaded1]
  ∧ "Microsoft.AnalysisServices.AdomdClient.dll" ∈
      downloaded0.info.dll_name :: downloaded0.info.additional_dlls
  ∧ cross_platform_frameworks.all (fun fw =>
      !(env0.fs (downloaded0.extract_dir ++ ["lib", fw]) &&
        env0.fs (downloaded0.extract_dir ++ ["lib", fw,
          "Microsoft.AnalysisServices.AdomdClient.dll"]))) = true
  ∧ find_specific_dll env0.fs downloaded0.extract_dir
        "Microsoft.AnalysisServices.AdomdClient.dll" = none
  ∧ (update_all_packages ⟨false⟩ env0 none).2 = false := by
  have h := missing_dll_returns_none_and_false ⟨false⟩ env0 none [downloaded0, downloaded1]
      downloaded0 "Microsoft.AnalysisServices.AdomdClient.dll" (by rfl) (by simp)
      (by simp [downloaded0, pkgAdomdClient]) (by rfl)
  exact ⟨by rfl, by simp, by simp [downloaded0, pkgAdomdClient], by rfl, h.1, h.2⟩

/-- Concrete instance of the C5 theorem: in `env2` the search API returns
an empty data array for every package. -/
theorem missing_version_returns_false_no_download_witness :
    pkgAdomdClient ∈ NUGET_PACKAGES
  ∧ env2.searchResponse pkgAdomdClient.name = SearchResult.success []
  ∧ get_latest_version env2 pkgAdomdClient.name = none
  ∧ (update_all_packages ⟨false⟩ env2 none).2 = false
  ∧ UEvent.download pkgAdomdClient.name "9.9.9" ∉ (update_all_packages ⟨false⟩ env2 none).1
    := by
  have h := missing_version_returns_false_no_download ⟨false⟩ env2 pkgAdomdClient ""
      (by simp [NUGET_PACKAGES]) (Or.inr (by rfl))
  exact ⟨by simp [NUGET_PACKAGES], by rfl, h.1, h.2.1, h.2.2 "9.9.9"⟩

/-- Concrete instance of the C6 theorem: in `env3` the version lookup
raises, in `env1` the download raises. -/
theorem network_failure_returns_none_and_false_witness :
    pkgAdomdClient ∈ NUGET_PACKAGES
  ∧ env3.searchResponse pkgAdomdClient.name = SearchResult.failure "timeout"
  ∧ get_latest_version env1 pkgAdomdClient.name = some "1.2.3"
  ∧ env1.downloadFails pkgAdomdClient.name "1.2.3" = true
  ∧ (get_latest_version env3 pkgAdomdClient.name = none
     ∧ download_package env1 pkgAdomdClient.name "1.2.3" = none
     ∧ (update_all_packages ⟨false⟩ env3 none).2 = false
     ∧ (update_all_packages ⟨false⟩ env1 none).2 = false) := by
  have h := network_failure_returns_none_and_false ⟨false⟩ env3 env1 pkgAdomdClient
      "timeout" "1.2.3" (by simp [NUGET_PACKAGES]) (by rfl) (by rfl) (by rfl)
  exact ⟨by simp [NUGET_PACKAGES], by rfl, by rfl, by rfl, h⟩

/-- Concrete instance of the C7 theorem at a representative error message
and a tolerated `set_runtime` message. -/
theorem init_reraises_import_errors_witness :
    containsSub "The .NET runtime coreclr has already been loaded"
        "already been loaded" = true
  ∧ (pytabular_init ⟨some "ImportError", none, none⟩ = .error "ImportError"
     ∧ pytabular_init ⟨none, none, some "ImportError"⟩ = .error "ImportError"
     ∧ ∃ tr, pytabular_init
         ⟨none, some "The .NET runtime coreclr has already been loaded", none⟩
           = .ok tr) :=
  ⟨by rfl, init_reraises_import_errors "ImportError"
      "The .NET runtime coreclr has already been loaded" none none (by rfl)⟩

/-- Concrete instance of the C8 theorem: in `env1` the first package's
download raises. -/
theorem phase1_failure_leaves_dll_dir_untouched_witness :
    pkgAdomdClient ∈ NUGET_PACKAGES
  ∧ (processPackage env1 none pkgAdomdClient).2 = none
  ∧ (update_all_packages ⟨false⟩ env1 none).2 = false
  ∧ (update_all_packages ⟨false⟩ env1 none).1.all (fun e => ! mutatesDllState e) = true
    := by
  have h := phase1_failure_leaves_dll_dir_untouched ⟨false⟩ env1 none pkgAdomdClient
      (by simp [NUGET_PACKAGES]) (by rfl)
  exact ⟨by simp [NUGET_PACKAGES], by rfl, h.1, h.2⟩

/-- Concrete instance of the C9 theorem at a dry-run updater. -/
theorem dry_run_no_mutation_witness :
    AdomoUpdater.dry_run ⟨true⟩ = true
  ∧ backup_existing_dlls ⟨true⟩ env0 = []
  ∧ (update_all_packages ⟨true⟩ env0 none).1.all (fun e => ! mutatesDllState e) = true := by
  have h := dry_run_no_mutation ⟨true⟩ env0 none rfl
  exact ⟨rfl, h.1, h.2⟩

end PyTabular
